import Mathlib

/-!
Shallow embedding of the KR_clean repository (src/dpll_variants.py and
src/encoder.py) together with proofs settling the specification claims.

Modelling conventions:
* Python `int` literals are Lean `Int`; clauses are `List Int` in source order.
* Python dicts are insertion-ordered association lists (`dictInsert` updates an
  existing key in place, otherwise appends, exactly like CPython dicts).
* Python sets of small ints are iterated in CPython in a deterministic
  hash-table order; every property proved below is invariant under the
  iteration order of those sets, so set iteration is modelled by
  first-occurrence order (`dedupKeepFirst`).
* The recursive search procedures are embedded with an explicit fuel
  parameter; `none` means the fuel ran out.  All concrete evaluations in the
  theorems below use enough fuel for the run to complete.
* `WatchedLiteralsDPLL` mutates its assignment dict in place and stores dict
  references in saved states, so its embedding carries an explicit heap of
  dicts (`WLState.heap`) and a current-dict address, reproducing CPython
  aliasing faithfully.
-/

namespace KR

abbrev Clause := List Int

/-- Python dict (variable -> bool) with insertion order, as an assoc list. -/
abbrev Dict := List (Nat × Bool)

/-- `d[k] = v`: overwrite in place if `k` present, else append (CPython dict). -/
def dictInsert : Dict → Nat → Bool → Dict
  | [], k, v => [(k, v)]
  | (k0, v0) :: rest, k, v =>
    if k0 = k then (k0, v) :: rest else (k0, v0) :: dictInsert rest k v

/-- `d.get(k)`. -/
def dictGet (d : Dict) (k : Nat) : Option Bool :=
  (d.find? (fun p => p.1 == k)).map (fun p => p.2)

/-- `d.update(d2)` (Python dict update). -/
def dictUpdate (d : Dict) (d2 : Dict) : Dict :=
  d2.foldl (fun acc p => dictInsert acc p.1 p.2) d

/-- `SolverMetrics` (src/dpll_variants.py lines 17-29). -/
structure Metrics where
  decisions : Nat
  backtracks : Nat
  unitProps : Nat
  conflicts : Nat
deriving DecidableEq, Repr

def metrics0 : Metrics := ⟨0, 0, 0, 0⟩

/-- First-occurrence deduplication (canonical order for Python set contents). -/
def dedupKeepFirstAux {α : Type} [BEq α] : List α → List α → List α
  | _, [] => []
  | seen, x :: xs =>
    if seen.contains x then dedupKeepFirstAux seen xs
    else x :: dedupKeepFirstAux (seen ++ [x]) xs

def dedupKeepFirst {α : Type} [BEq α] (l : List α) : List α :=
  dedupKeepFirstAux [] l

/-- Ordered occurrence counter (Python defaultdict(int) insertion order). -/
def countsOrdered {α : Type} [BEq α] (xs : List α) : List (α × Nat) :=
  xs.foldl (fun acc x =>
    if acc.any (fun p => p.1 == x) then
      acc.map (fun p => if p.1 == x then (p.1, p.2 + 1) else p)
    else acc ++ [(x, 1)]) []

/-- Python `max(keys, key=count)`: first key reaching the maximal count. -/
def firstMax {α : Type} : List (α × Nat) → Option α
  | [] => none
  | x :: rest =>
    some ((rest.foldl (fun best p => if best.2 < p.2 then p else best) x).1)

/-- `BaseDPLL._assign_literal` (lines 127-135). -/
def assignLiteral (clauses : List Clause) (lit : Int) : List Clause :=
  clauses.filterMap (fun c =>
    if c.contains lit then none else some (c.filter (fun l => l != -lit)))

/-- Positive-occurrence variables, first-occurrence order. -/
def positiveVars (clauses : List Clause) : List Nat :=
  dedupKeepFirst (clauses.flatten.filterMap
    (fun l => if 0 < l then some l.natAbs else none))

/-- Negative-occurrence variables, first-occurrence order. -/
def negativeVars (clauses : List Clause) : List Nat :=
  dedupKeepFirst (clauses.flatten.filterMap
    (fun l => if l < 0 then some l.natAbs else none))

def minNat : List Nat → Option Nat
  | [] => none
  | x :: xs =>
    match minNat xs with
    | none => some x
    | some m => some (min x m)

/-- `BaseDPLL._find_pure_literal` (lines 137-157): `min` over the pure set. -/
def findPureLiteral (clauses : List Clause) : Option Int :=
  let pos := positiveVars clauses
  let neg := negativeVars clauses
  match minNat (pos.filter (fun v => !(neg.contains v))) with
  | some v => some (Int.ofNat v)
  | none =>
    match minNat (neg.filter (fun v => !(pos.contains v))) with
    | some v => some (-(Int.ofNat v))
    | none => none

/-- `BaseDPLL._choose_variable` (lines 159-171): DLIS over literals. -/
def chooseVariableBase (clauses : List Clause) : Nat :=
  match firstMax (countsOrdered clauses.flatten) with
  | none => 1
  | some l => l.natAbs

/-- Inner loop of `BaseDPLL._unit_propagate` (lines 106-123): processes the
snapshot of unit clauses; `none` in the first component signals a conflict. -/
def baseUPInner : List Clause → List Clause → Dict → Metrics → Bool →
    (Option (List Clause)) × Dict × Metrics × Bool
  | [], clauses, a, m, ch => (some clauses, a, m, ch)
  | u :: rest, clauses, a, m, ch =>
    let lit := u.headD 0
    let var := lit.natAbs
    let value := decide (0 < lit)
    match dictGet a var with
    | some w =>
      if w != value then (none, a, m, ch)
      else baseUPInner rest clauses a m ch
    | none =>
      let a2 := dictInsert a var value
      let cs2 := assignLiteral clauses lit
      let m2 := { m with unitProps := m.unitProps + 1 }
      if cs2.any (fun c => c.isEmpty) then (none, a2, m2, true)
      else baseUPInner rest cs2 a2 m2 true

/-- `BaseDPLL._unit_propagate` (lines 96-125): the `while changed` loop. -/
def baseUnitPropagate (fuel : Nat) (clauses : List Clause) (a : Dict)
    (m : Metrics) : Option ((Option (List Clause)) × Dict × Metrics) :=
  match fuel with
  | 0 => none
  | fuel + 1 =>
    let units := clauses.filter (fun c => c.length == 1)
    if units.isEmpty then some (some clauses, a, m)
    else
      match baseUPInner units clauses a m false with
      | (none, a2, m2, _) => some (none, a2, m2)
      | (some cs, a2, m2, changed) =>
        if changed then baseUnitPropagate fuel cs a2 m2
        else some (some cs, a2, m2)

/-- `BaseDPLL._dpll` (lines 61-94).  Returns `(result, recorded assignment,
metrics)`; the recorded assignment is the one written to `self.assignment`
at the satisfied leaf, `none` when no leaf succeeded. -/
def baseDpll : Nat → List Clause → Dict → Metrics →
    Option (Bool × Option Dict × Metrics)
  | 0, _, _, _ => none
  | fuel + 1, clauses, a, m =>
    (baseUnitPropagate (fuel + 1) clauses a m).bind (fun r =>
      match r with
      | (none, _, m1) =>
        some (false, none, { m1 with conflicts := m1.conflicts + 1 })
      | (some cs, a1, m1) =>
        if cs.isEmpty then some (true, some a1, m1)
        else
          match findPureLiteral cs with
          | some pl =>
            baseDpll fuel (assignLiteral cs pl)
              (dictInsert a1 pl.natAbs (decide (0 < pl))) m1
          | none =>
            let v := chooseVariableBase cs
            let m2 := { m1 with decisions := m1.decisions + 1 }
            (baseDpll fuel (assignLiteral cs (Int.ofNat v))
                (dictInsert a1 v true) m2).bind (fun r1 =>
              match r1 with
              | (true, sa, m3) => some (true, sa, m3)
              | (false, _, m3) =>
                baseDpll fuel (assignLiteral cs (-(Int.ofNat v)))
                  (dictInsert a1 v false)
                  { m3 with backtracks := m3.backtracks + 1 }))

/-- Model construction shared by all solvers (lines 52-57 / 212-217):
position `i` holds `+i` iff variable `i` is assigned true. -/
def modelFrom (a : Dict) (numVars : Nat) : List Int :=
  (List.range numVars).map (fun i =>
    let v := i + 1
    if dictGet a v == some true then Int.ofNat v else -(Int.ofNat v))

def FUEL : Nat := 60

/-- `BaseDPLL.solve` (lines 46-59) with a seeded `self.assignment`
(`PreprocessingDPLL.solve` seeds it at line 401; a fresh instance has `{}`). -/
def baseSolveSeeded (clauses : List Clause) (numVars : Nat) (seed : Dict) :
    Option (String × Option (List Int) × Metrics) :=
  (baseDpll FUEL clauses seed metrics0).map (fun r =>
    match r with
    | (true, sa, m) => ("SAT", some (modelFrom (sa.getD seed) numVars), m)
    | (false, _, m) => ("UNSAT", none, m))

def baseSolve (clauses : List Clause) (numVars : Nat) :
    Option (String × Option (List Int) × Metrics) :=
  baseSolveSeeded clauses numVars []

/-! ## WatchedLiteralsDPLL (lines 174-358)

The solver keeps `self.assignment` as a mutable dict and saves *references* to
copied dicts in `_save_state`; writes through `self.assignment` after a
`_restore_state` mutate the saved copy.  The embedding therefore threads an
explicit heap of dicts and an address for the current dict. -/

structure WLState where
  heap : List Dict
  cur : Nat
  m : Metrics
deriving DecidableEq, Repr

def curDict (s : WLState) : Dict := s.heap.getD s.cur []

/-- `self.assignment[var] = value` (in-place write through the current ref). -/
def wlAssign (s : WLState) (var : Nat) (value : Bool) : WLState :=
  { s with heap := s.heap.set s.cur (dictInsert (curDict s) var value) }

/-- `_save_state` (lines 350-354): store a copy, return its address. -/
def wlSave (s : WLState) : Nat × WLState :=
  (s.heap.length, { s with heap := s.heap ++ [curDict s] })

/-- `_restore_state` (lines 356-358): `self.assignment = state['assignment']`,
i.e. repoint the current-dict reference at the saved object. -/
def wlRestore (s : WLState) (addr : Nat) : WLState :=
  { s with cur := addr }

/-- `_initialize_watches` (lines 194-204): each clause watches its first two
literals; `watches` maps a literal to the clause indices watching it. -/
def addWatch (w : List (Int × List Nat)) (lit : Int) (idx : Nat) :
    List (Int × List Nat) :=
  match w with
  | [] => [(lit, [idx])]
  | (l0, is) :: rest =>
    if l0 == lit then (l0, is ++ [idx]) :: rest
    else (l0, is) :: addWatch rest lit idx

def initWatchesAux : Nat → List Clause → List (Int × List Nat) →
    List (Int × List Nat)
  | _, [], w => w
  | i, c :: rest, w =>
    let w1 := match c with
      | [] => w
      | [a] => addWatch w a i
      | a :: b :: _ => addWatch (addWatch w a i) b i
    initWatchesAux (i + 1) rest w1

def initWatches (clauses : List Clause) : List (Int × List Nat) :=
  initWatchesAux 0 clauses []

def watchList (w : List (Int × List Nat)) (lit : Int) : List Nat :=
  ((w.find? (fun p => p.1 == lit)).map (fun p => p.2)).getD []

/-- `_is_unit_clause` helper: `none` when some literal is satisfied, else the
number of unassigned literals. -/
def unassignedOrSat : List Int → Dict → Option Nat
  | [], _ => some 0
  | l :: rest, a =>
    match dictGet a l.natAbs with
    | none => (unassignedOrSat rest a).map (fun n => n + 1)
    | some w =>
      if w == decide (0 < l) then none else unassignedOrSat rest a

/-- `_is_unit_clause` (lines 297-309). -/
def isUnitClause (c : Clause) (a : Dict) : Bool :=
  unassignedOrSat c a == some 1

/-- `_is_conflicting` (lines 311-320): every literal assigned and false. -/
def isConflicting (c : Clause) (a : Dict) : Bool :=
  c.all (fun l =>
    match dictGet a l.natAbs with
    | none => false
    | some w => w != decide (0 < l))

/-- `_get_unit_literal` (lines 322-328): first unassigned literal, if any. -/
def getUnitLiteral (c : Clause) (a : Dict) : Option Int :=
  c.find? (fun l => (dictGet a l.natAbs).isNone)

/-- Lines 289-293: examine the clauses watching the newly falsified literal;
unit ones are appended to the queue, a conflicting one aborts propagation. -/
def scanWatchers (clauses : List Clause) (a : Dict) : List Nat → Option (List Nat)
  | [] => some []
  | i :: rest =>
    let c := clauses.getD i []
    if isUnitClause c a then (scanWatchers clauses a rest).map (fun q => i :: q)
    else if isConflicting c a then none
    else scanWatchers clauses a rest

/-- Initial queue of `_unit_propagate` (lines 260-263). -/
def initialUnitQueue (clauses : List Clause) (a : Dict) : List Nat :=
  (List.range clauses.length).filter (fun i => isUnitClause (clauses.getD i []) a)

/-- `_unit_propagate` (lines 256-295): FIFO queue processing. -/
def wlUnitProp (clauses : List Clause) (watches : List (Int × List Nat)) :
    Nat → List Nat → WLState → Option (Bool × WLState)
  | 0, _, _ => none
  | _ + 1, [], s => some (true, s)
  | fuel + 1, i :: rest, s =>
    let c := clauses.getD i []
    let a := curDict s
    match getUnitLiteral c a with
    | none => wlUnitProp clauses watches fuel rest s
    | some lit =>
      let var := lit.natAbs
      let value := decide (0 < lit)
      match dictGet a var with
      | some w =>
        if w != value then some (false, s)
        else wlUnitProp clauses watches fuel rest s
      | none =>
        let s2 := wlAssign s var value
        let s3 := { s2 with m := { s2.m with unitProps := s2.m.unitProps + 1 } }
        match scanWatchers clauses (curDict s3) (watchList watches (-lit)) with
        | none => some (false, s3)
        | some appended => wlUnitProp clauses watches fuel (rest ++ appended) s3

/-- `WatchedLiteralsDPLL._choose_variable` (lines 330-348). -/
def wlChooseVariable (clauses : List Clause) (a : Dict) : Option Nat :=
  let active := clauses.filter (fun c =>
    !(c.any (fun l => dictGet a l.natAbs == some (decide (0 < l)))))
  let lits := active.flatten.filter (fun l => (dictGet a l.natAbs).isNone)
  firstMax (countsOrdered (lits.map (fun l => l.natAbs)))

def PROPFUEL : Nat := 200

/-- `WatchedLiteralsDPLL._dpll` (lines 221-254). -/
def wlDpll (clauses : List Clause) (watches : List (Int × List Nat))
    (numVars : Nat) : Nat → WLState → Option (Bool × WLState)
  | 0, _ => none
  | fuel + 1, s =>
    (wlUnitProp clauses watches PROPFUEL
        (initialUnitQueue clauses (curDict s)) s).bind (fun pr =>
      match pr with
      | (false, s1) =>
        some (false, { s1 with m := { s1.m with conflicts := s1.m.conflicts + 1 } })
      | (true, s1) =>
        if (curDict s1).length == numVars then some (true, s1)
        else
          match wlChooseVariable clauses (curDict s1) with
          | none => some (true, s1)
          | some v =>
            let s2 := { s1 with m := { s1.m with decisions := s1.m.decisions + 1 } }
            let saved := wlSave s2
            let s4 := wlAssign saved.2 v true
            (wlDpll clauses watches numVars fuel s4).bind (fun r1 =>
              match r1 with
              | (true, s5) => some (true, s5)
              | (false, s5) =>
                let s6 := wlRestore s5 saved.1
                let s7 := { s6 with m := { s6.m with backtracks := s6.m.backtracks + 1 } }
                let s8 := wlAssign s7 v false
                (wlDpll clauses watches numVars fuel s8).bind (fun r2 =>
                  match r2 with
                  | (true, s9) => some (true, s9)
                  | (false, s9) => some (false, wlRestore s9 saved.1))))

/-- Run `_dpll` from a freshly constructed solver (optionally with a seeded
assignment, as `CombinedDPLL.solve` does at line 602). -/
def wlRun (clauses : List Clause) (numVars : Nat) (seed : Dict) :
    Option (Bool × WLState) :=
  wlDpll clauses (initWatches clauses) numVars FUEL
    { heap := [seed], cur := 0, m := metrics0 }

/-- `WatchedLiteralsDPLL.solve` (lines 206-219). -/
def wlSolve (clauses : List Clause) (numVars : Nat) (seed : Dict) :
    Option (String × Option (List Int) × Metrics) :=
  (wlRun clauses numVars seed).map (fun r =>
    match r with
    | (true, s) => ("SAT", some (modelFrom (curDict s) numVars), s.m)
    | (false, s) => ("UNSAT", none, s.m))

/-! ## PreprocessingDPLL (lines 361-553) -/

/-- Clause simplification step of `_exhaustive_unit_propagation`
(lines 457-466): drop satisfied clauses, remove the falsified literal and
abort (`none`) as soon as a clause becomes empty. -/
def simplifyWith : List Clause → Int → Option (List Clause)
  | [], _ => some []
  | c :: rest, lit =>
    if c.contains lit then simplifyWith rest lit
    else
      let c2 := c.filter (fun l => l != -lit)
      if c2.isEmpty then none
      else (simplifyWith rest lit).map (fun cs => c2 :: cs)

/-- Inner snapshot loop of `_exhaustive_unit_propagation` (lines 443-466).
Returns (clauses or conflict-`none`, assignment, unit propagations, changed). -/
def exUPInner : List Clause → List Clause → Dict → Nat → Bool →
    (Option (List Clause)) × Dict × Nat × Bool
  | [], clauses, a, ups, ch => (some clauses, a, ups, ch)
  | u :: rest, clauses, a, ups, ch =>
    let lit := u.headD 0
    let var := lit.natAbs
    let value := decide (0 < lit)
    match dictGet a var with
    | some w =>
      if w != value then (none, a, ups, ch)
      else exUPInner rest clauses a ups ch
    | none =>
      let a2 := dictInsert a var value
      match simplifyWith clauses lit with
      | none => (none, a2, ups + 1, true)
      | some cs => exUPInner rest cs a2 (ups + 1) true

/-- `_exhaustive_unit_propagation` (lines 431-468). -/
def exhaustiveUP (fuel : Nat) (clauses : List Clause) (a : Dict) (ups : Nat) :
    Option ((Option (List Clause)) × Dict × Nat) :=
  match fuel with
  | 0 => none
  | fuel + 1 =>
    let units := clauses.filter (fun c => c.length == 1)
    if units.isEmpty then some (some clauses, a, ups)
    else
      match exUPInner units clauses a ups false with
      | (none, a2, u2, _) => some (none, a2, u2)
      | (some cs, a2, u2, changed) =>
        if changed then exhaustiveUP fuel cs a2 u2
        else some (some cs, a2, u2)

/-- `_pure_literal_elimination` (lines 470-496).  CPython iterates the
positive/negative variable sets in hash order; the resulting clause list and
assignment contents are independent of that order, so first-occurrence order
is used here. -/
def pureLiteralElim (clauses : List Clause) (assignment : Dict) :
    List Clause × Dict :=
  let pos := positiveVars clauses
  let neg := negativeVars clauses
  let pures : List Int :=
    (pos.filter (fun v => !(neg.contains v))).map (fun v => Int.ofNat v) ++
    (neg.filter (fun v => !(pos.contains v))).map (fun v => -(Int.ofNat v))
  pures.foldl (fun acc lit =>
    (acc.1.filter (fun c => !(c.contains lit)),
     dictInsert acc.2 lit.natAbs (decide (0 < lit)))) (clauses, assignment)

/-- `set(c2).issubset(set(c1))`. -/
def subsetOf (c2 c1 : Clause) : Bool :=
  c2.all (fun l => c1.contains l)

/-- `_subsumption_elimination` (lines 498-513).  Note the test is
`c2.issubset(c1)` for `i != j` — *non-strict* inclusion; returns
(kept clauses, clauses_eliminated increment). -/
def subsumptionElim (clauses : List Clause) : List Clause × Nat :=
  let n := clauses.length
  (List.range n).foldl (fun acc i =>
    let ci := clauses.getD i []
    if (List.range n).any (fun j => (j != i) && subsetOf (clauses.getD j []) ci)
    then (acc.1, acc.2 + 1)
    else (acc.1 ++ [ci], acc.2)) ([], 0)

/-- Occurrence lists of `_bounded_variable_elimination` (lines 517-526),
built once over the clause list at entry, keys in first-occurrence order. -/
def addOcc (m : List (Nat × List Nat × List Nat)) (v : Nat) (idx : Nat)
    (pos : Bool) : List (Nat × List Nat × List Nat) :=
  match m with
  | [] => if pos then [(v, [idx], [])] else [(v, [], [idx])]
  | (v0, ps, ns) :: rest =>
    if v0 == v then
      (if pos then (v0, ps ++ [idx], ns) else (v0, ps, ns ++ [idx])) :: rest
    else (v0, ps, ns) :: addOcc rest v idx pos

def buildOccAux : Nat → List Clause → List (Nat × List Nat × List Nat) →
    List (Nat × List Nat × List Nat)
  | _, [], m => m
  | i, c :: rest, m =>
    buildOccAux (i + 1) rest
      (c.foldl (fun m2 lit => addOcc m2 lit.natAbs i (decide (0 < lit))) m)

def buildOcc (clauses : List Clause) : List (Nat × List Nat × List Nat) :=
  buildOccAux 0 clauses []

/-- `clauses[i]` with IndexError modelled as `none`. -/
def mapIdx (clauses : List Clause) : List Nat → Option (List Clause)
  | [] => some []
  | i :: rest =>
    match clauses.get? i with
    | none => none
    | some c => (mapIdx clauses rest).map (fun cs => c :: cs)

/-- Keep the clauses whose current index is outside both occurrence lists
(line 541-542). -/
def keepOutside : Nat → List Clause → List Nat → List Nat → List Clause
  | _, [], _, _ => []
  | i, c :: rest, ps, ns =>
    if !(ps.contains i) && !(ns.contains i) then
      c :: keepOutside (i + 1) rest ps ns
    else keepOutside (i + 1) rest ps ns

/-- Resolvent of lines 545-549: `set(pos) | set(neg)` minus `v` and `-v`.
CPython's `list(set(...))` order is hash-determined; the properties proved
below only depend on the literal multiset, so first-occurrence order is used. -/
def resolventOf (p nc : Clause) (v : Nat) : Clause :=
  (dedupKeepFirst (p ++ nc)).filter
    (fun l => (l != Int.ofNat v) && (l != -(Int.ofNat v)))

/-- Main loop of `_bounded_variable_elimination` (lines 528-553), iterating
the occurrence map built at entry while `clauses` is rebound — the stored
indices go stale after the first elimination.  Returns
(clauses, vars_eliminated, number of empty resolvents dropped by the
`if resolvent` filter); the last component has no Python counterpart and only
instruments the non-emptiness check at line 550. -/
def bveLoop : List (Nat × List Nat × List Nat) → List Clause → Nat → Nat →
    Nat → Option (List Clause × Nat × Nat)
  | [], clauses, _, ve, ed => some (clauses, ve, ed)
  | (v, ps, ns) :: rest, clauses, maxNew, ve, ed =>
    (mapIdx clauses ps).bind (fun posC =>
      (mapIdx clauses ns).bind (fun negC =>
        if posC.length * negC.length ≤ maxNew then
          let kept := keepOutside 0 clauses ps ns
          let res := posC.flatMap (fun p => negC.map (fun nc => resolventOf p nc v))
          let nonEmpty := res.filter (fun r => !(r.isEmpty))
          bveLoop rest (kept ++ nonEmpty) maxNew (ve + 1)
            (ed + (res.length - nonEmpty.length))
        else bveLoop rest clauses maxNew ve ed))

/-- `_bounded_variable_elimination` (lines 515-553). -/
def bve (clauses : List Clause) (maxNew : Nat) :
    Option (List Clause × Nat × Nat) :=
  bveLoop (buildOcc clauses) clauses maxNew 0 0

/-- `_preprocess` (lines 412-429): returns (clauses or UNSAT-`none`,
self.assignment, unit propagations, vars_eliminated, clauses_eliminated). -/
def preprocess (clauses : List Clause) :
    Option ((Option (List Clause)) × Dict × Nat × Nat × Nat) :=
  (exhaustiveUP FUEL clauses [] 0).bind (fun r =>
    match r with
    | (none, upA, ups) => some (none, dictUpdate [] upA, ups, 0, 0)
    | (some cs, upA, ups) =>
      let selfA := dictUpdate [] upA
      let pe := pureLiteralElim cs selfA
      let se := subsumptionElim pe.1
      (bve se.1 10).map (fun b =>
        (some b.1, pe.2, ups, b.2.1, se.2)))

/-- `PreprocessingDPLL.solve` (lines 380-410). -/
def preprocessingSolve (clauses : List Clause) (numVars : Nat) :
    Option (String × Option (List Int) × Metrics) :=
  (preprocess clauses).bind (fun r =>
    match r with
    | (none, _, ups, _, _) => some ("UNSAT", none, ⟨0, 0, ups, 0⟩)
    | (some cs, selfA, ups, _, _) =>
      if cs.isEmpty then some ("SAT", some (modelFrom selfA numVars), ⟨0, 0, ups, 0⟩)
      else
        (baseSolveSeeded cs numVars selfA).map (fun br =>
          (br.1, br.2.1,
            ⟨br.2.2.decisions, br.2.2.backtracks,
             ups + br.2.2.unitProps, br.2.2.conflicts⟩)))

/-- `CombinedDPLL.solve` (lines 575-611): the same preprocessing pipeline
followed by watched-literals search seeded with the accumulated assignment. -/
def combinedSolve (clauses : List Clause) (numVars : Nat) :
    Option (String × Option (List Int) × Metrics) :=
  (preprocess clauses).bind (fun r =>
    match r with
    | (none, _, ups, _, _) => some ("UNSAT", none, ⟨0, 0, ups, 0⟩)
    | (some cs, selfA, ups, _, _) =>
      if cs.isEmpty then some ("SAT", some (modelFrom selfA numVars), ⟨0, 0, ups, 0⟩)
      else
        (wlSolve cs numVars selfA).map (fun wr =>
          (wr.1, wr.2.1,
            ⟨wr.2.2.decisions, wr.2.2.backtracks,
             ups + wr.2.2.unitProps, wr.2.2.conflicts⟩)))

/-- `get_solver` (lines 614-627); the outer `none` is the `ValueError` branch. -/
def runVariant (variant : String) (clauses : List Clause) (numVars : Nat) :
    Option (Option (String × Option (List Int) × Metrics)) :=
  if variant == "base" then some (baseSolve clauses numVars)
  else if variant == "watched" then some (wlSolve clauses numVars [])
  else if variant == "preprocessing" then some (preprocessingSolve clauses numVars)
  else if variant == "combined" then some (combinedSolve clauses numVars)
  else none

/-! ## Encoder (src/encoder.py)

The puzzle file is modelled after parsing (lines 52-59 read the file into a
list of integer rows); `SATSolver.__init__` performs no validation, so the
grid is taken as `List (List Nat)`.  The only grid accesses are in
`generate_model` (lines 138-146), where a row shorter than `N` raises
IndexError — modelled as `none`. -/

structure Variable where
  row : Nat
  col : Nat
  val : Nat
  neg : Bool
deriving DecidableEq, Repr

/-- `map_variable` (lines 112-125): `var(r,c,v) = r*N*N + c*N + v`, negated
when the `Variable` is a negation. -/
def mapVariable (N : Nat) (v : Variable) : Int :=
  if v.neg then -(Int.ofNat (v.row * N * N + v.col * N + v.val))
  else Int.ofNat (v.row * N * N + v.col * N + v.val)

def posVar (r c v : Nat) : Variable := ⟨r, c, v, false⟩

def negVar (r c v : Nat) : Variable := ⟨r, c, v, true⟩

/-- `range(1, N+1)`. -/
def vals (N : Nat) : List Nat := (List.range N).map (fun a => a + 1)

/-- The index-pair double loops (`for a in xs: for b in xs[after a]:`) used by
the pairwise at-most-one constraints. -/
def listPairs {α : Type} : List α → List (α × α)
  | [] => []
  | x :: xs => (xs.map (fun y => (x, y))) ++ listPairs xs

/-- `generate_rule1_one_per_cell` (lines 197-218). -/
def rule1 (N : Nat) : List (List Variable) :=
  (List.range N).flatMap (fun i =>
    (List.range N).flatMap (fun j =>
      [(vals N).map (posVar i j)] ++
      (listPairs (vals N)).map (fun p => [negVar i j p.1, negVar i j p.2])))

/-- `generate_rule2_row_constraint` (lines 221-242). -/
def rule2 (N : Nat) : List (List Variable) :=
  (List.range N).flatMap (fun r =>
    (vals N).flatMap (fun v =>
      [(List.range N).map (fun c => posVar r c v)] ++
      (listPairs (List.range N)).map (fun p => [negVar r p.1 v, negVar r p.2 v])))

/-- `generate_rule3_col_constraint` (lines 245-264). -/
def rule3 (N : Nat) : List (List Variable) :=
  (List.range N).flatMap (fun c =>
    (vals N).flatMap (fun v =>
      [(List.range N).map (fun r => posVar r c v)] ++
      (listPairs (List.range N)).map (fun p => [negVar p.1 c v, negVar p.2 c v])))

/-- Integer square root (largest `k` with `k * k ≤ n`), written with
structural recursion so that it evaluates inside the kernel.  This models
`int(N ** 0.5)` at line 272, which equals the integer square root for every
grid size arising here (floats are exact well beyond these magnitudes). -/
def isqrtAux (n : Nat) : Nat → Nat
  | 0 => 0
  | k + 1 => if (k + 1) * (k + 1) ≤ n then k + 1 else isqrtAux n k

def isqrt (n : Nat) : Nat := isqrtAux n n

/-- Cells of one box (lines 277-282). -/
def boxCells (n br bc : Nat) : List (Nat × Nat) :=
  (List.range n).flatMap (fun i =>
    (List.range n).map (fun j => (br * n + i, bc * n + j)))

/-- `generate_rule4_box_constraint` (lines 267-298). -/
def rule4 (N : Nat) : List (List Variable) :=
  let n := isqrt N
  (List.range n).flatMap (fun br =>
    (List.range n).flatMap (fun bc =>
      (vals N).flatMap (fun v =>
        [(boxCells n br bc).map (fun rc => posVar rc.1 rc.2 v)] ++
        (listPairs (boxCells n br bc)).map
          (fun p => [negVar p.1.1 p.1.2 v, negVar p.2.1 p.2.2 v]))))

/-- Orthogonal neighbours (lines 311-319). -/
def neighborsOf (N i j : Nat) : List (Nat × Nat) :=
  (if 0 < i then [(i - 1, j)] else []) ++
  (if i < N - 1 then [(i + 1, j)] else []) ++
  (if 0 < j then [(i, j - 1)] else []) ++
  (if j < N - 1 then [(i, j + 1)] else [])

/-- `generate_rule5_non_consecutive` (lines 301-334). -/
def rule5 (N : Nat) : List (List Variable) :=
  (List.range N).flatMap (fun i =>
    (List.range N).flatMap (fun j =>
      (vals N).flatMap (fun v =>
        (neighborsOf N i j).flatMap (fun adj =>
          (if 1 < v then [[negVar i j v, negVar adj.1 adj.2 (v - 1)]] else []) ++
          (if v < N then [[negVar i j v, negVar adj.1 adj.2 (v + 1)]] else [])))))

/-- Clue clauses of one row (`generate_model`, lines 138-147): cell values are
read at columns `0..N-1`; zero cells are skipped. -/
def cluesOfRow (i : Nat) : Nat → List Nat → List (List Variable)
  | _, [] => []
  | j, v :: rest =>
    (if v = 0 then [] else [[posVar i j v]]) ++ cluesOfRow i (j + 1) rest

/-- `generate_model` over the whole grid: a row with fewer than `N` entries
raises IndexError (`none`). -/
def cluesOfGrid (N : Nat) : Nat → List (List Nat) → Option (List (List Variable))
  | _, [] => some []
  | i, row :: rest =>
    if N ≤ row.length then
      (cluesOfGrid N (i + 1) rest).map (fun cs => cluesOfRow i 0 (row.take N) ++ cs)
    else none

/-- `SATSolver.encode` + `to_cnf` (lines 152-173 and 338-348): clue clauses
followed by the five rule families (rule 5 is generated twice in the source
but bound to the same name, so it appears once in the sum), all mapped
through `map_variable`; `num_vars = N ** 3`. -/
def encode (g : List (List Nat)) : Option (List (List Int) × Nat) :=
  let N := g.length
  (cluesOfGrid N 0 g).map (fun clues =>
    ((clues ++ rule1 N ++ rule2 N ++ rule3 N ++ rule4 N ++ rule5 N).map
      (fun C => C.map (mapVariable N)), N ^ 3))

def toCnf (g : List (List Nat)) : Option (List (List Int) × Nat) :=
  encode g

/-- Well-formed input in the sense of the specification: a square grid whose
size is a perfect square and whose values lie in `[0, N]`. -/
def WellFormedGrid (g : List (List Nat)) : Prop :=
  (∀ row ∈ g, row.length = g.length) ∧
  (∀ row ∈ g, ∀ v ∈ row, v ≤ g.length) ∧
  isqrt g.length * isqrt g.length = g.length

instance (g : List (List Nat)) : Decidable (WellFormedGrid g) := by
  unfold WellFormedGrid; infer_instance

/-! ## Claim-side predicates -/

/-- The specification's satisfaction notion: some literal `l` of the clause
agrees with the model, i.e. `M[|l|] = l` (models are 1-indexed sequences). -/
def clauseSatisfiedBy (model : List Int) (c : Clause) : Bool :=
  c.any (fun l => model.getD (l.natAbs - 1) 0 == l)

/-- Whether some clause of the list mentions variable `v` (as `v` or `-v`). -/
def mentionsVar (clauses : List Clause) (v : Nat) : Bool :=
  clauses.any (fun c => c.contains (Int.ofNat v) || c.contains (-(Int.ofNat v)))

/-- Variables produced by the encoder with in-range coordinates. -/
def VarOK (N : Nat) (v : Variable) : Prop :=
  v.row < N ∧ v.col < N ∧ 1 ≤ v.val ∧ v.val ≤ N

/-- Two runs of `get_solver(variant, clauses, num_vars).solve()` on freshly
constructed instances. -/
def runTwice (variant : String) (clauses : List Clause) (numVars : Nat) :
    Option (Option (String × Option (List Int) × Metrics)) ×
    Option (Option (String × Option (List Int) × Metrics)) :=
  (runVariant variant clauses numVars, runVariant variant clauses numVars)

/-! ## Theorems for the claims -/

/-- C1: the claim that every SAT answer of every variant comes with a model
satisfying every input clause fails on the code: on the unsatisfiable CNF
`{{1,2,3},{-1},{-2},{-3}}` the watched-literals variant answers SAT with
model `[-1,-2,-3]`, which falsifies the clause `{1,2,3}` — propagation
dequeues that clause once it is fully falsified, `_get_unit_literal` returns
`None`, and the conflict is skipped by the `continue` at line 272. -/
theorem claim1_watched_returns_falsifying_model :
    wlSolve [[1, 2, 3], [-1], [-2], [-3]] 3 [] =
      some ("SAT", some [-1, -2, -3], ⟨0, 0, 3, 0⟩) ∧
    ([1, 2, 3] : Clause) ∈ [[1, 2, 3], [-1], [-2], [-3]] ∧
    clauseSatisfiedBy [-1, -2, -3] [1, 2, 3] = false := by
  decide

/-- C2: the claim that all variants return the same status on every CNF fails
on the code: on `{{1,2,3},{-1},{-2},{-3}}` the base variant answers UNSAT
while the watched variant answers SAT (via `get_solver`). -/
theorem claim2_variants_disagree_on_status :
    (runVariant "base" [[1, 2, 3], [-1], [-2], [-3]] 3).map
      (fun r => r.map (fun p => p.1)) = some (some "UNSAT") ∧
    (runVariant "watched" [[1, 2, 3], [-1], [-2], [-3]] 3).map
      (fun r => r.map (fun p => p.1)) = some (some "SAT") := by
  decide

/-- C3: the claim that subsumption removes a clause only for a *strict*
subset — so at least one of two equal clauses survives — fails on the code:
`issubset` is non-strict, so on `[[1,2],[1,2]]` each copy subsumes the other
and both are removed (with `clauses_eliminated` incremented twice). -/
theorem claim3_subsumption_removes_both_duplicates :
    subsumptionElim [[1, 2], [1, 2]] = ([], 2) := by
  decide

/-- C4: the claim that after a both-polarity failure the assignment is
restored to exactly the saved pre-decision assignment fails on the code: on
`{{1,2},{1,-2},{-1,2},{-1,-2}}` the root decision starts from the empty
assignment, both polarities fail, yet after `_dpll` returns false the
assignment is `{1: False, 2: True}` — `self.assignment[var] = False` at line
248 mutates the dict object stored in `saved_state`, so the second
`_restore_state` restores the mutated dict. -/
theorem claim4_assignment_not_restored_after_double_failure :
    (wlRun [[1, 2], [1, -2], [-1, 2], [-1, -2]] 2 []).map
      (fun r => (r.1, curDict r.2)) = some (false, [(1, false), (2, true)]) ∧
    [(1, false), (2, true)] ≠ ([] : Dict) := by
  decide

/-- C5 counterexample: on input `{{1,-1}}` the pipeline hands `{{1,-1}}`
unchanged to bounded variable elimination, which computes an empty resolvent
(resolving the tautology with itself and discarding both `1` and `-1`),
drops it, and `PreprocessingDPLL.solve` returns SAT — not UNSAT as claimed. -/
theorem claim5_empty_resolvent_does_not_force_unsat :
    exhaustiveUP FUEL [[1, -1]] [] 0 = some (some [[1, -1]], [], 0) ∧
    pureLiteralElim [[1, -1]] [] = ([[1, -1]], []) ∧
    subsumptionElim [[1, -1]] = ([[1, -1]], 0) ∧
    bve [[1, -1]] 10 = some ([], 1, 1) ∧
    preprocessingSolve [[1, -1]] 1 = some ("SAT", some [-1], ⟨0, 0, 0, 0⟩) :=
  ⟨by decide, by decide, by decide, by decide, by decide⟩

/-- C5 amended: when bounded variable elimination computes an empty
resolvent it is silently dropped by the `if resolvent` filter, and `solve()`
answers from the remaining clauses — the status need not be UNSAT: on
`{{1,-1}}` BVE drops one empty resolvent and both `PreprocessingDPLL.solve`
and `CombinedDPLL.solve` return SAT. -/
theorem claim5_empty_resolvent_silently_dropped :
    bve [[1, -1]] 10 = some ([], 1, 1) ∧
    preprocessingSolve [[1, -1]] 1 = some ("SAT", some [-1], ⟨0, 0, 0, 0⟩) ∧
    combinedSolve [[1, -1]] 1 = some ("SAT", some [-1], ⟨0, 0, 0, 0⟩) := by
  decide

/-- C6: the claim that no clause of BVE's output mentions an eliminated
variable fails on the code: on
`[[1,2],[1,-2],[-1,3],[-1,-3],[2,3],[-2,-3]]` the pass counts three
eliminations (`vars_eliminated = 3`, i.e. variables 1, 2 and 3), yet the
returned list `[[2,3],[2,-3]]` still mentions variables 2 and 3 — the
occurrence lists hold indices into the entry clause list, which go stale
after the first elimination rebinds `clauses`. -/
theorem claim6_eliminated_variable_survives :
    bve [[1, 2], [1, -2], [-1, 3], [-1, -3], [2, 3], [-2, -3]] 10 =
      some ([[2, 3], [2, -3]], 3, 4) ∧
    mentionsVar [[2, 3], [2, -3]] 2 = true ∧
    mentionsVar [[2, 3], [2, -3]] 3 = true := by
  decide

/-- C7: the claim that `to_cnf` fails with InvalidInput when the grid size is
not a perfect square fails on the code: `SATSolver.__init__` and `encode`
perform no validation, so the 2×2 all-zero grid (N = 2, not a perfect
square) successfully returns a clause set with `num_vars = 8`. -/
theorem claim7_nonsquare_size_grid_encodes_successfully :
    (toCnf [[0, 0], [0, 0]]).isSome = true ∧
    (toCnf [[0, 0], [0, 0]]).map (fun r => r.2) = some 8 ∧
    isqrt 2 * isqrt 2 ≠ 2 := by
  decide

/-- C9: the claim that every variant answers UNSAT on `{{1},{-1}}` with at
least one counted conflict fails on the code: all four variants answer
UNSAT, and base and watched count one conflict, but preprocessing and
combined detect the contradiction inside `_exhaustive_unit_propagation`,
whose UNSAT exit never touches `metrics.conflicts`, leaving it 0. -/
theorem claim9_preprocessing_unsat_zero_conflicts :
    baseSolve [[1], [-1]] 1 = some ("UNSAT", none, ⟨0, 0, 1, 1⟩) ∧
    wlSolve [[1], [-1]] 1 [] = some ("UNSAT", none, ⟨0, 0, 1, 1⟩) ∧
    preprocessingSolve [[1], [-1]] 1 = some ("UNSAT", none, ⟨0, 0, 1, 0⟩) ∧
    combinedSolve [[1], [-1]] 1 = some ("UNSAT", none, ⟨0, 0, 1, 0⟩) :=
  ⟨by decide, by decide, by decide, by decide⟩

/-! ### C8: every encoder literal lies in `[1, N^3]` -/

theorem mem_vals {N v : Nat} : v ∈ vals N ↔ 1 ≤ v ∧ v ≤ N := by
  simp only [vals, List.mem_map, List.mem_range]
  constructor
  · rintro ⟨a, ha, rfl⟩; omega
  · intro h; exact ⟨v - 1, by omega, by omega⟩

theorem listPairs_subset {α : Type} {l : List α} {p : α × α}
    (h : p ∈ listPairs l) : p.1 ∈ l ∧ p.2 ∈ l := by
  induction l with
  | nil => simp [listPairs] at h
  | cons x xs ih =>
    simp only [listPairs, List.mem_append, List.mem_map] at h
    rcases h with ⟨y, hy, rfl⟩ | h
    · exact ⟨List.mem_cons_self x xs, List.mem_cons_of_mem x hy⟩
    · exact ⟨List.mem_cons_of_mem x (ih h).1, List.mem_cons_of_mem x (ih h).2⟩

theorem varOK_pos {N r c v : Nat} (hr : r < N) (hc : c < N) (h1 : 1 ≤ v)
    (h2 : v ≤ N) : VarOK N (posVar r c v) :=
  ⟨hr, hc, h1, h2⟩

theorem varOK_neg {N r c v : Nat} (hr : r < N) (hc : c < N) (h1 : 1 ≤ v)
    (h2 : v ≤ N) : VarOK N (negVar r c v) :=
  ⟨hr, hc, h1, h2⟩

theorem mapVariable_natAbs (N : Nat) (v : Variable) :
    (mapVariable N v).natAbs = v.row * N * N + v.col * N + v.val := by
  unfold mapVariable
  split
  · rw [Int.natAbs_neg]
    exact Int.natAbs_ofNat _
  · exact Int.natAbs_ofNat _

theorem varIdx_le {N r c v : Nat} (hr : r < N) (hc : c < N) (hv : v ≤ N) :
    r * N * N + c * N + v ≤ N ^ 3 := by
  have h1 : (c + 1) * N ≤ N * N := Nat.mul_le_mul_right N hc
  have h2 : (r + 1) * (N * N) ≤ N * (N * N) := Nat.mul_le_mul_right (N * N) hr
  have e1 : (c + 1) * N = c * N + N := by ring
  have e2 : (r + 1) * (N * N) = r * N * N + N * N := by ring
  have e3 : N ^ 3 = N * (N * N) := by ring
  rw [e1] at h1
  rw [e2] at h2
  rw [e3]
  omega

theorem mapVariable_ok {N : Nat} {v : Variable} (h : VarOK N v) :
    1 ≤ (mapVariable N v).natAbs ∧ (mapVariable N v).natAbs ≤ N ^ 3 := by
  obtain ⟨hr, hc, hv1, hv2⟩ := h
  rw [mapVariable_natAbs]
  exact ⟨by omega, varIdx_le hr hc hv2⟩

theorem rule1_ok {N : Nat} : ∀ C ∈ rule1 N, ∀ w ∈ C, VarOK N w := by
  intro C hC w hw
  simp only [rule1, List.mem_flatMap, List.mem_range, List.cons_append,
    List.nil_append, List.mem_cons, List.mem_map] at hC
  obtain ⟨i, hi, j, hj, hC⟩ := hC
  rcases hC with rfl | ⟨p, hp, rfl⟩
  · simp only [List.mem_map] at hw
    obtain ⟨v, hv, rfl⟩ := hw
    rw [mem_vals] at hv
    exact ⟨hi, hj, hv.1, hv.2⟩
  · obtain ⟨h1, h2⟩ := listPairs_subset hp
    rw [mem_vals] at h1 h2
    simp only [List.mem_cons, List.not_mem_nil, or_false] at hw
    rcases hw with rfl | rfl
    · exact ⟨hi, hj, h1.1, h1.2⟩
    · exact ⟨hi, hj, h2.1, h2.2⟩

theorem rule2_ok {N : Nat} : ∀ C ∈ rule2 N, ∀ w ∈ C, VarOK N w := by
  intro C hC w hw
  simp only [rule2, List.mem_flatMap, List.mem_range, List.cons_append,
    List.nil_append, List.mem_cons, List.mem_map] at hC
  obtain ⟨r, hr, v, hv, hC⟩ := hC
  rw [mem_vals] at hv
  rcases hC with rfl | ⟨p, hp, rfl⟩
  · simp only [List.mem_map, List.mem_range] at hw
    obtain ⟨c, hc, rfl⟩ := hw
    exact ⟨hr, hc, hv.1, hv.2⟩
  · obtain ⟨h1, h2⟩ := listPairs_subset hp
    rw [List.mem_range] at h1 h2
    simp only [List.mem_cons, List.not_mem_nil, or_false] at hw
    rcases hw with rfl | rfl
    · exact ⟨hr, h1, hv.1, hv.2⟩
    · exact ⟨hr, h2, hv.1, hv.2⟩

theorem rule3_ok {N : Nat} : ∀ C ∈ rule3 N, ∀ w ∈ C, VarOK N w := by
  intro C hC w hw
  simp only [rule3, List.mem_flatMap, List.mem_range, List.cons_append,
    List.nil_append, List.mem_cons, List.mem_map] at hC
  obtain ⟨c, hc, v, hv, hC⟩ := hC
  rw [mem_vals] at hv
  rcases hC with rfl | ⟨p, hp, rfl⟩
  · simp only [List.mem_map, List.mem_range] at hw
    obtain ⟨r, hr, rfl⟩ := hw
    exact ⟨hr, hc, hv.1, hv.2⟩
  · obtain ⟨h1, h2⟩ := listPairs_subset hp
    rw [List.mem_range] at h1 h2
    simp only [List.mem_cons, List.not_mem_nil, or_false] at hw
    rcases hw with rfl | rfl
    · exact ⟨h1, hc, hv.1, hv.2⟩
    · exact ⟨h2, hc, hv.1, hv.2⟩

theorem boxCells_ok {n br bc : Nat} (hbr : br < n) (hbc : bc < n) :
    ∀ rc ∈ boxCells n br bc, rc.1 < n * n ∧ rc.2 < n * n := by
  intro rc h
  simp only [boxCells, List.mem_flatMap, List.mem_map, List.mem_range] at h
  obtain ⟨i, hi, j, hj, rfl⟩ := h
  have h1 : (br + 1) * n ≤ n * n := Nat.mul_le_mul_right n hbr
  have h2 : (bc + 1) * n ≤ n * n := Nat.mul_le_mul_right n hbc
  have e1 : (br + 1) * n = br * n + n := by ring
  have e2 : (bc + 1) * n = bc * n + n := by ring
  rw [e1] at h1
  rw [e2] at h2
  exact ⟨(by omega : br * n + i < n * n), (by omega : bc * n + j < n * n)⟩

theorem rule4_ok {N : Nat} (hsq : isqrt N * isqrt N = N) :
    ∀ C ∈ rule4 N, ∀ w ∈ C, VarOK N w := by
  intro C hC w hw
  simp only [rule4, List.mem_flatMap, List.mem_range, List.cons_append,
    List.nil_append, List.mem_cons, List.mem_map] at hC
  obtain ⟨br, hbr, bc, hbc, v, hv, hC⟩ := hC
  rw [mem_vals] at hv
  rcases hC with rfl | ⟨p, hp, rfl⟩
  · simp only [List.mem_map] at hw
    obtain ⟨rc, hrc, rfl⟩ := hw
    obtain ⟨h1, h2⟩ := boxCells_ok hbr hbc rc hrc
    rw [hsq] at h1 h2
    exact ⟨h1, h2, hv.1, hv.2⟩
  · obtain ⟨h1, h2⟩ := listPairs_subset hp
    obtain ⟨h11, h12⟩ := boxCells_ok hbr hbc p.1 h1
    obtain ⟨h21, h22⟩ := boxCells_ok hbr hbc p.2 h2
    rw [hsq] at h11 h12 h21 h22
    simp only [List.mem_cons, List.not_mem_nil, or_false] at hw
    rcases hw with rfl | rfl
    · exact ⟨h11, h12, hv.1, hv.2⟩
    · exact ⟨h21, h22, hv.1, hv.2⟩

theorem neighborsOf_ok {N i j : Nat} (hi : i < N) (hj : j < N) :
    ∀ a ∈ neighborsOf N i j, a.1 < N ∧ a.2 < N := by
  intro a ha
  simp only [neighborsOf, List.mem_append] at ha
  rcases ha with ((ha | ha) | ha) | ha <;> split at ha <;>
    simp only [List.mem_cons, List.not_mem_nil, or_false] at ha <;> subst ha
  · exact ⟨(by omega : i - 1 < N), hj⟩
  · exact ⟨(by omega : i + 1 < N), hj⟩
  · exact ⟨hi, (by omega : j - 1 < N)⟩
  · exact ⟨hi, (by omega : j + 1 < N)⟩

theorem rule5_ok {N : Nat} : ∀ C ∈ rule5 N, ∀ w ∈ C, VarOK N w := by
  intro C hC w hw
  simp only [rule5, List.mem_flatMap, List.mem_range] at hC
  obtain ⟨i, hi, j, hj, v, hv, adj, hadj, hC⟩ := hC
  rw [mem_vals] at hv
  obtain ⟨ha1, ha2⟩ := neighborsOf_ok hi hj adj hadj
  rw [List.mem_append] at hC
  rcases hC with hC | hC <;> split at hC <;>
    simp only [List.mem_cons, List.not_mem_nil, or_false] at hC
  · subst hC
    simp only [List.mem_cons, List.not_mem_nil, or_false] at hw
    obtain ⟨hv1, hv2⟩ := hv
    rcases hw with rfl | rfl
    · exact varOK_neg hi hj hv1 hv2
    · exact varOK_neg ha1 ha2 (by omega) (by omega)
  · subst hC
    simp only [List.mem_cons, List.not_mem_nil, or_false] at hw
    obtain ⟨hv1, hv2⟩ := hv
    rcases hw with rfl | rfl
    · exact varOK_neg hi hj hv1 hv2
    · exact varOK_neg ha1 ha2 (by omega) (by omega)

theorem cluesOfRow_ok : ∀ (row : List Nat) (i j : Nat), ∀ C ∈ cluesOfRow i j row,
    ∃ j2 v, C = [posVar i j2 v] ∧ j ≤ j2 ∧ j2 < j + row.length ∧
      v ∈ row ∧ v ≠ 0 := by
  intro row
  induction row with
  | nil => intro i j C hC; simp [cluesOfRow] at hC
  | cons v rest ih =>
    intro i j C hC
    simp only [cluesOfRow, List.mem_append] at hC
    rcases hC with hC | hC
    · split at hC
      · simp at hC
      · simp only [List.mem_cons, List.not_mem_nil, or_false] at hC
        subst hC
        exact ⟨j, v, rfl, Nat.le_refl j, by simp only [List.length_cons]; omega,
          List.mem_cons_self v rest, by omega⟩
    · obtain ⟨j2, w, rfl, h1, h2, h3, h4⟩ := ih i (j + 1) C hC
      exact ⟨j2, w, rfl, by omega, by simp only [List.length_cons]; omega,
        List.mem_cons_of_mem v h3, h4⟩

theorem cluesOfGrid_ok : ∀ (rows : List (List Nat)) (N i : Nat),
    (∀ row ∈ rows, N ≤ row.length) →
    ∃ cs, cluesOfGrid N i rows = some cs ∧
      ∀ C ∈ cs, ∃ i2 j v row, C = [posVar i2 j v] ∧ i ≤ i2 ∧
        i2 < i + rows.length ∧ j < N ∧ row ∈ rows ∧ v ∈ row ∧ v ≠ 0 := by
  intro rows
  induction rows with
  | nil => intro N i _; exact ⟨[], rfl, by simp⟩
  | cons row rest ih =>
    intro N i h
    have hrow : N ≤ row.length := h row (List.mem_cons_self row rest)
    obtain ⟨cs, hcs, hprop⟩ := ih N (i + 1)
      (fun r hr => h r (List.mem_cons_of_mem row hr))
    refine ⟨cluesOfRow i 0 (row.take N) ++ cs, ?_, ?_⟩
    · simp [cluesOfGrid, hrow, hcs]
    · intro C hC
      rcases List.mem_append.mp hC with hC | hC
      · obtain ⟨j2, v, rfl, _, hj2, hv, hv0⟩ := cluesOfRow_ok (row.take N) i 0 C hC
        have hjlt : j2 < N := by
          have := List.length_take N row
          omega
        exact ⟨i, j2, v, row, rfl, Nat.le_refl i,
          by simp only [List.length_cons]; omega,
          hjlt, List.mem_cons_self row rest, List.take_subset N row hv, hv0⟩
      · obtain ⟨i2, j, v, r, rfl, hi2a, hi2b, hj, hr, hv, hv0⟩ := hprop C hC
        exact ⟨i2, j, v, r, rfl, by omega,
          by simp only [List.length_cons]; omega, hj,
          List.mem_cons_of_mem row hr, hv, hv0⟩

/-- C8: for every well-formed grid (square, perfect-square size, values in
`[0, N]`), `to_cnf` succeeds, returns `num_vars = N^3`, and every literal of
every returned clause has `1 ≤ |l| ≤ N^3`. -/
theorem claim8_encoder_literals_in_range (g : List (List Nat))
    (h : WellFormedGrid g) :
    ∃ cls, toCnf g = some (cls, g.length ^ 3) ∧
      ∀ C ∈ cls, ∀ l ∈ C, 1 ≤ l.natAbs ∧ l.natAbs ≤ g.length ^ 3 := by
  obtain ⟨hlen, hval, hsq⟩ := h
  obtain ⟨cs, hcs, hprop⟩ := cluesOfGrid_ok g g.length 0
    (fun r hr => Nat.le_of_eq (hlen r hr).symm)
  refine ⟨(cs ++ rule1 g.length ++ rule2 g.length ++ rule3 g.length ++
      rule4 g.length ++ rule5 g.length).map
      (fun C => C.map (mapVariable g.length)), ?_, ?_⟩
  · simp only [toCnf, encode, hcs]
    rfl
  · intro C hC l hl
    simp only [List.mem_map] at hC
    obtain ⟨C0, hC0, rfl⟩ := hC
    simp only [List.mem_map] at hl
    obtain ⟨w, hw, rfl⟩ := hl
    apply mapVariable_ok
    simp only [List.append_assoc, List.mem_append] at hC0
    rcases hC0 with hC0 | hC0 | hC0 | hC0 | hC0 | hC0
    · obtain ⟨i2, j, v, row, rfl, _, hi2, hj, hrow, hv, hv0⟩ := hprop C0 hC0
      simp only [List.mem_cons, List.not_mem_nil, or_false] at hw
      subst hw
      exact varOK_pos (by simpa using hi2) hj (by omega) (hval row hrow v hv)
    · exact rule1_ok C0 hC0 w hw
    · exact rule2_ok C0 hC0 w hw
    · exact rule3_ok C0 hC0 w hw
    · exact rule4_ok hsq C0 hC0 w hw
    · exact rule5_ok C0 hC0 w hw

/-- Witness for C8 at the concrete well-formed grid `[[0]]`. -/
theorem claim8_witness :
    WellFormedGrid [[0]] ∧
    ∃ cls, toCnf [[0]] = some (cls, [[0]].length ^ 3) ∧
      ∀ C ∈ cls, ∀ l ∈ C, 1 ≤ l.natAbs ∧ l.natAbs ≤ [[0]].length ^ 3 :=
  ⟨by decide, claim8_encoder_literals_in_range [[0]] (by decide)⟩

/-- C10: every variant's solve is deterministic — two runs on freshly
constructed instances with the same `(clauses, num_vars)` return identical
status, model and metrics.  In the source all iteration orders are
deterministic (lists, insertion-ordered dicts, CPython's int-set order) and
no global state, randomness or clock is consulted, so each solve embeds as a
pure function of `(variant, clauses, num_vars)`; the two components of
`runTwice` are then definitionally equal. -/
theorem claim10_solvers_deterministic (variant : String)
    (clauses : List Clause) (numVars : Nat) :
    (runTwice variant clauses numVars).1 = (runTwice variant clauses numVars).2 := by
  rfl

end KR
